import Mathlib

/-!
Shallow embedding of `db/dataset_eval.py` (AcousticBrainz evaluation job
queue) and proofs about it.

The persistent store (the `dataset_eval_jobs` table) is modelled as a list
of rows (`Store := List Job`).  SQL statements become pure functions on the
store: `SELECT ... WHERE` becomes `List.filter` / `List.find?`,
`ORDER BY created ASC` becomes `List.insertionSort` on the `created`
column, `UPDATE ... WHERE id = x` becomes `List.map` that rewrites the
matching rows, and `INSERT` appends a row.  Non-deterministic inputs of the
real system — `current_timestamp` and `uuid_generate_v4()` — are passed in
explicitly (`now : Nat`, `newId : String`).  External collaborators
(`dataset_validator.validate`, `db.dataset.get`, `db.data.count_lowlevel`)
are function parameters.  Python exceptions become `Except` errors; a
raised exception aborts the transaction, so an `Except.error` result
carries no modified store.
-/

namespace DatasetEval

/-- Job statuses, as in the source module. -/
def STATUS_PENDING : String := "pending"

def STATUS_RUNNING : String := "running"

def STATUS_DONE : String := "done"

def STATUS_FAILED : String := "failed"

/-- One row of the `dataset_eval_jobs` table. -/
structure Job where
  id : String
  dataset_id : String
  status : String
  status_msg : Option String
  result : Option String
  created : Nat
  updated : Nat
deriving Repr, DecidableEq

/-- The `dataset_eval_jobs` table. -/
abbrev Store := List Job

/-- A dataset class: a named collection of recording MBIDs
(`cls["recordings"]` in the source). -/
structure DatasetClass where
  name : String
  recordings : List String
deriving Repr, DecidableEq

/-- A dataset as seen by `validate_dataset`: its list of classes
(`dataset["classes"]`). -/
structure Dataset where
  classes : List DatasetClass
deriving Repr, DecidableEq

/-- Errors raised during dataset validation: either the external
JSON-schema check fails, or some recording has no low-level data
(`raise Exception("Can't find low-level data for recording: %s")`,
which carries the offending recording). -/
inductive ValidationError
  | structural
  | missingLowLevel (recording : String)
deriving Repr, DecidableEq

/-- Errors raised by `evaluate_dataset`: `JobExistsException` or a
propagated validation error. -/
inductive EvalError
  | jobExists
  | validation (e : ValidationError)
deriving Repr, DecidableEq

/-- Error raised by `set_job_status`: `IncorrectJobStatusException`. -/
inductive DbError
  | incorrectJobStatus
deriving Repr, DecidableEq

/-- The inner loop of `validate_dataset` over the recordings of one class,
with the `rec_memo` dictionary threaded through.  Returns the outcome
(error = the offending recording) together with the sequence of recordings
passed to `db.data.count_lowlevel` (the lookup trace).  The first Python
statement of the loop body — `if recording_mbid in rec_memo and
rec_memo[recording_mbid]: pass` — evaluates its condition and does
nothing; it is kept here as a discarded `let`. -/
def validateRecsMemo (count : String → Nat) :
    List String → List (String × Bool) → Except String (List (String × Bool)) × List String
  | [], memo => (Except.ok memo, [])
  | r :: rest, memo =>
    let _memoHit : Bool := (memo.lookup r).getD false
    if count r > 0 then
      let res := validateRecsMemo count rest ((r, true) :: memo)
      (res.1, r :: res.2)
    else
      (Except.error r, [r])

/-- The outer loop of `validate_dataset` over the dataset's classes,
threading `rec_memo` across classes as the source does. -/
def validateClassesMemo (count : String → Nat) :
    List DatasetClass → List (String × Bool) → Except String (List (String × Bool)) × List String
  | [], memo => (Except.ok memo, [])
  | c :: rest, memo =>
    match validateRecsMemo count c.recordings memo with
    | (Except.ok memo2, tr) =>
      let res := validateClassesMemo count rest memo2
      (res.1, tr ++ res.2)
    | (Except.error r, tr) => (Except.error r, tr)

/-- Variant of the recording loop with the `rec_memo` bookkeeping removed:
every recording reference is looked up. -/
def validateRecsNoMemo (count : String → Nat) : List String → Except String Unit × List String
  | [] => (Except.ok (), [])
  | r :: rest =>
    if count r > 0 then
      let res := validateRecsNoMemo count rest
      (res.1, r :: res.2)
    else
      (Except.error r, [r])

/-- Variant of the class loop with the `rec_memo` bookkeeping removed. -/
def validateClassesNoMemo (count : String → Nat) :
    List DatasetClass → Except String Unit × List String
  | [] => (Except.ok (), [])
  | c :: rest =>
    match validateRecsNoMemo count c.recordings with
    | (Except.ok _, tr) =>
      let res := validateClassesNoMemo count rest
      (res.1, tr ++ res.2)
    | (Except.error r, tr) => (Except.error r, tr)

/-- `validate_dataset`: run the external JSON-schema validator
(`dataset_validator.validate(dataset, complete=True)`, modelled by the
`schemaValid` parameter), then check that every recording referenced by
every class has low-level data.  Returns the outcome together with the
low-level lookup trace. -/
def validate_dataset (schemaValid : Dataset → Bool) (count : String → Nat) (ds : Dataset) :
    Except ValidationError Unit × List String :=
  if schemaValid ds then
    let res := validateClassesMemo count ds.classes []
    (match res.1 with
     | Except.ok _ => Except.ok ()
     | Except.error r => Except.error (ValidationError.missingLowLevel r), res.2)
  else
    (Except.error ValidationError.structural, [])

/-- `validate_dataset` with the dead `rec_memo` bookkeeping removed. -/
def validate_dataset_nomemo (schemaValid : Dataset → Bool) (count : String → Nat)
    (ds : Dataset) : Except ValidationError Unit × List String :=
  if schemaValid ds then
    let res := validateClassesNoMemo count ds.classes
    (match res.1 with
     | Except.ok _ => Except.ok ()
     | Except.error r => Except.error (ValidationError.missingLowLevel r), res.2)
  else
    (Except.error ValidationError.structural, [])

/-- Every recording reference of the dataset, in class / recording
iteration order (the order the Python nested loops visit them). -/
def allRecordings (ds : Dataset) : List String :=
  ds.classes.flatMap (fun c => c.recordings)

/-- The duplicate check of `evaluate_dataset`:
`SELECT count(*) FROM dataset_eval_jobs WHERE dataset_id = %s AND status IN
('pending', 'running')`. -/
def countActive (st : Store) (dataset_id : String) : Nat :=
  (st.filter (fun j =>
    j.dataset_id = dataset_id ∧ (j.status = STATUS_PENDING ∨ j.status = STATUS_RUNNING))).length

/-- `_create_job`: `INSERT INTO dataset_eval_jobs (id, dataset_id, status)
VALUES (uuid_generate_v4(), %s, 'pending') RETURNING id`.  The generated
UUID is the `newId` parameter; the `created` / `updated` columns take the
insertion timestamp. -/
def _create_job (now : Nat) (newId : String) (st : Store) (dataset_id : String) :
    String × Store :=
  (newId, st ++ [⟨newId, dataset_id, STATUS_PENDING, none, none, now, now⟩])

/-- `evaluate_dataset(dataset_id)`: fail with `JobExistsException` if an
active (pending or running) job for the dataset exists, then validate the
dataset fetched from the dataset store, then insert a new pending job and
return its id together with the new store. -/
def evaluate_dataset (schemaValid : Dataset → Bool) (count : String → Nat)
    (getDataset : String → Dataset) (now : Nat) (newId : String)
    (st : Store) (dataset_id : String) : Except EvalError (String × Store) :=
  if countActive st dataset_id > 0 then
    Except.error EvalError.jobExists
  else
    match (validate_dataset schemaValid count (getDataset dataset_id)).1 with
    | Except.error e => Except.error (EvalError.validation e)
    | Except.ok _ => Except.ok (_create_job now newId st dataset_id)

/-- Row order used by `ORDER BY created ASC`. -/
def jobLE (a b : Job) : Prop :=
  a.created ≤ b.created

instance : DecidableRel jobLE := fun a b => Nat.decLe a.created b.created

instance : IsTotal Job jobLE := ⟨fun a b => Nat.le_total a.created b.created⟩

instance : IsTrans Job jobLE := ⟨fun _ _ _ h h' => Nat.le_trans h h'⟩

/-- `get_next_pending_job`: `SELECT ... WHERE status = 'pending' ORDER BY
created ASC LIMIT 1`, i.e. the head of the pending rows sorted by
`created`; `None` when there is no pending row. -/
def get_next_pending_job (st : Store) : Option Job :=
  (List.insertionSort jobLE (st.filter (fun j => j.status = STATUS_PENDING))).head?

/-- `get_job(job_id)`: `SELECT ... WHERE id = %s`, the matching row or
`None`. -/
def get_job (st : Store) (job_id : String) : Option Job :=
  st.find? (fun j => j.id = job_id)

/-- `get_jobs_for_dataset(dataset_id)`: `SELECT ... WHERE dataset_id = %s
ORDER BY created ASC`. -/
def get_jobs_for_dataset (st : Store) (dataset_id : String) : List Job :=
  List.insertionSort jobLE (st.filter (fun j => j.dataset_id = dataset_id))

/-- `set_job_result(job_id, result)`: `UPDATE dataset_eval_jobs SET
(result, updated) = (%s, current_timestamp) WHERE id = %s`. -/
def set_job_result (now : Nat) (st : Store) (job_id : String) (result : String) : Store :=
  st.map (fun j =>
    if j.id = job_id then { j with result := some result, updated := now } else j)

/-- `set_job_status(job_id, status, status_msg)`: raise
`IncorrectJobStatusException` if `status` is not one of the four
recognized values, otherwise `UPDATE ... SET (status, status_msg, updated)
= (%s, %s, current_timestamp) WHERE id = %s`. -/
def set_job_status (now : Nat) (st : Store) (job_id : String) (status : String)
    (status_msg : Option String) : Except DbError Store :=
  if status ∈ [STATUS_PENDING, STATUS_RUNNING, STATUS_DONE, STATUS_FAILED] then
    Except.ok (st.map (fun j =>
      if j.id = job_id then
        { j with status := status, status_msg := status_msg, updated := now }
      else j))
  else
    Except.error DbError.incorrectJobStatus

/-- Forget the memo payload of a validation outcome, for comparing the
memoized loop with the memo-free one. -/
def dropMemo : Except String (List (String × Bool)) → Except String Unit
  | Except.ok _ => Except.ok ()
  | Except.error r => Except.error r

/-! Helper lemmas. -/

theorem validateRecs_memo_eq (count : String → Nat) :
    ∀ (recs : List String) (memo : List (String × Bool)),
      dropMemo (validateRecsMemo count recs memo).1 = (validateRecsNoMemo count recs).1 ∧
      (validateRecsMemo count recs memo).2 = (validateRecsNoMemo count recs).2
  | [], _ => ⟨rfl, rfl⟩
  | r :: rest, memo => by
    simp only [validateRecsMemo, validateRecsNoMemo]
    by_cases h : count r > 0
    · simp only [if_pos h]
      exact ⟨(validateRecs_memo_eq count rest ((r, true) :: memo)).1,
        by simp [(validateRecs_memo_eq count rest ((r, true) :: memo)).2]⟩
    · simp [if_neg h, dropMemo]

theorem validateClasses_memo_eq (count : String → Nat) :
    ∀ (cls : List DatasetClass) (memo : List (String × Bool)),
      dropMemo (validateClassesMemo count cls memo).1 = (validateClassesNoMemo count cls).1 ∧
      (validateClassesMemo count cls memo).2 = (validateClassesNoMemo count cls).2
  | [], _ => ⟨rfl, rfl⟩
  | c :: rest, memo => by
    have hr := validateRecs_memo_eq count c.recordings memo
    simp only [validateClassesMemo, validateClassesNoMemo]
    rcases hm : validateRecsMemo count c.recordings memo with ⟨res, tr⟩
    rcases hn : validateRecsNoMemo count c.recordings with ⟨res2, tr2⟩
    rw [hm, hn] at hr
    cases res with
    | ok memo2 =>
      cases res2 with
      | ok u =>
        have ht : tr = tr2 := hr.2
        have := validateClasses_memo_eq count rest memo2
        exact ⟨this.1, by simp [ht, this.2]⟩
      | error r => exact absurd hr.1 (by simp [dropMemo])
    | error r =>
      cases res2 with
      | ok u => exact absurd hr.1 (by simp [dropMemo])
      | error r2 =>
        have : r = r2 := by simpa [dropMemo] using hr.1
        exact ⟨by simp [dropMemo, this], hr.2⟩

theorem validateRecsNoMemo_ok_trace (count : String → Nat) :
    ∀ recs : List String, (validateRecsNoMemo count recs).1 = Except.ok () →
      (validateRecsNoMemo count recs).2 = recs
  | [], _ => rfl
  | r :: rest, h => by
    simp only [validateRecsNoMemo] at h ⊢
    by_cases hc : count r > 0
    · simp only [if_pos hc] at h ⊢
      exact congrArg (r :: ·) (validateRecsNoMemo_ok_trace count rest h)
    · simp only [if_neg hc] at h
      exact absurd h (by simp)

theorem validateClassesNoMemo_ok_trace (count : String → Nat) :
    ∀ cls : List DatasetClass, (validateClassesNoMemo count cls).1 = Except.ok () →
      (validateClassesNoMemo count cls).2 = cls.flatMap (fun c => c.recordings)
  | [], _ => rfl
  | c :: rest, h => by
    simp only [validateClassesNoMemo] at h ⊢
    rcases hn : validateRecsNoMemo count c.recordings with ⟨res, tr⟩
    rw [hn] at h
    cases res with
    | ok u =>
      simp only at h ⊢
      have h1 : tr = c.recordings := by
        have := validateRecsNoMemo_ok_trace count c.recordings
        rw [hn] at this
        exact this rfl
      rw [List.flatMap_cons, h1, validateClassesNoMemo_ok_trace count rest h]
    | error r => exact absurd h (by simp)

theorem find?_append_some {α : Type} {p : α → Bool} :
    ∀ {l1 l2 : List α} {a : α}, l1.find? p = some a → (l1 ++ l2).find? p = some a
  | [], _, _, h => by simp at h
  | x :: rest, l2, a, h => by
    simp only [List.find?_cons, List.cons_append] at h ⊢
    cases hx : p x with
    | true => rw [hx] at h; exact h
    | false => rw [hx] at h; exact find?_append_some h

theorem find?_append_none {α : Type} {p : α → Bool} :
    ∀ {l1 l2 : List α}, l1.find? p = none → (l1 ++ l2).find? p = l2.find? p
  | [], _, _ => rfl
  | x :: rest, l2, h => by
    simp only [List.find?_cons, List.cons_append] at h ⊢
    cases hx : p x with
    | true => rw [hx] at h; exact absurd h (by simp)
    | false => rw [hx] at h; exact find?_append_none h

theorem validateRecsMemo_error_of_find (count : String → Nat) :
    ∀ (recs : List String) (memo : List (String × Bool)) (r : String),
      recs.find? (fun x => count x = 0) = some r →
      (validateRecsMemo count recs memo).1 = Except.error r
  | [], _, _, h => by simp at h
  | x :: rest, memo, r, h => by
    simp only [List.find?_cons] at h
    by_cases hc : count x = 0
    · rw [show (decide (count x = 0)) = true by simp [hc]] at h
      simp only [validateRecsMemo]
      rw [if_neg (by omega)]
      simpa using h
    · rw [show (decide (count x = 0)) = false by simp [hc]] at h
      simp only [validateRecsMemo]
      rw [if_pos (Nat.pos_of_ne_zero hc)]
      exact validateRecsMemo_error_of_find count rest ((x, true) :: memo) r h

theorem validateRecsMemo_ok_of_find_none (count : String → Nat) :
    ∀ (recs : List String) (memo : List (String × Bool)),
      recs.find? (fun x => count x = 0) = none →
      ∃ m, validateRecsMemo count recs memo = (Except.ok m, recs)
  | [], memo, _ => ⟨memo, rfl⟩
  | x :: rest, memo, h => by
    simp only [List.find?_cons] at h
    by_cases hc : count x = 0
    · rw [show (decide (count x = 0)) = true by simp [hc]] at h
      exact absurd h (by simp)
    · rw [show (decide (count x = 0)) = false by simp [hc]] at h
      obtain ⟨m, hm⟩ := validateRecsMemo_ok_of_find_none count rest ((x, true) :: memo) h
      refine ⟨m, ?_⟩
      simp only [validateRecsMemo]
      rw [if_pos (Nat.pos_of_ne_zero hc), hm]

theorem validateClassesMemo_error_of_find (count : String → Nat) :
    ∀ (cls : List DatasetClass) (memo : List (String × Bool)) (r : String),
      (cls.flatMap (fun c => c.recordings)).find? (fun x => count x = 0) = some r →
      (validateClassesMemo count cls memo).1 = Except.error r
  | [], _, _, h => by simp at h
  | c :: rest, memo, r, h => by
    rw [List.flatMap_cons] at h
    cases hi : c.recordings.find? (fun x => count x = 0) with
    | some r0 =>
      have : r0 = r := by
        rw [find?_append_some hi] at h
        exact Option.some.inj h
      subst this
      have herr := validateRecsMemo_error_of_find count c.recordings memo r0 hi
      simp only [validateClassesMemo]
      rcases hm : validateRecsMemo count c.recordings memo with ⟨res, tr⟩
      rw [hm] at herr
      cases res with
      | ok m => exact absurd herr (by simp)
      | error rx => simpa using herr
    | none =>
      rw [find?_append_none hi] at h
      obtain ⟨m, hm⟩ := validateRecsMemo_ok_of_find_none count c.recordings memo hi
      simp only [validateClassesMemo]
      rw [hm]
      exact validateClassesMemo_error_of_find count rest m r h

theorem update_map_id {st : Store} {jid : String} (f : Job → Job)
    (h : ∀ j ∈ st, j.id ≠ jid) :
    st.map (fun j => if j.id = jid then f j else j) = st := by
  have : st.map (fun j => if j.id = jid then f j else j) = st.map id :=
    List.map_congr_left (fun a ha => by simp [h a ha])
  simpa using this

theorem evaluate_dataset_ok_iff (schemaValid : Dataset → Bool) (count : String → Nat)
    (getDataset : String → Dataset) (now : Nat) (newId : String)
    (st : Store) (d : String) (jid : String) (st' : Store) :
    evaluate_dataset schemaValid count getDataset now newId st d = Except.ok (jid, st') ↔
      countActive st d = 0 ∧
      (validate_dataset schemaValid count (getDataset d)).1 = Except.ok () ∧
      jid = newId ∧ st' = st ++ [⟨newId, d, STATUS_PENDING, none, none, now, now⟩] := by
  simp only [evaluate_dataset]
  by_cases hc : countActive st d > 0
  · rw [if_pos hc]
    simp [Nat.pos_iff_ne_zero.mp hc]
  · rw [if_neg hc]
    have hc0 : countActive st d = 0 := Nat.eq_zero_of_not_pos hc
    cases hv : (validate_dataset schemaValid count (getDataset d)).1 with
    | ok u =>
      cases u
      simp only [_create_job]
      constructor
      · intro h
        have h1 := Except.ok.inj h
        exact ⟨hc0, by simp [hv], (congrArg Prod.fst h1).symm, (congrArg Prod.snd h1).symm⟩
      · rintro ⟨-, -, rfl, rfl⟩
        rfl
    | error e =>
      constructor
      · intro h
        exact absurd h (by simp)
      · rintro ⟨-, hok, -, -⟩
        exact absurd hok (by simp)

theorem countActive_append_pending (st : Store) (d : String) (newId : String) (now : Nat) :
    countActive (st ++ [⟨newId, d, STATUS_PENDING, none, none, now, now⟩]) d > 0 := by
  simp [countActive, List.filter_append]

/-- Example dataset with one class and two recordings, for concrete
instantiations. -/
def exDs : Dataset := ⟨[⟨"c1", ["r1", "r2"]⟩]⟩

/-- Example pending job. -/
def exJob : Job := ⟨"j1", "d1", STATUS_PENDING, none, none, 3, 3⟩

/-- Example finished job, older than `exJob`. -/
def exJob2 : Job := ⟨"j2", "d1", STATUS_DONE, none, some "res", 1, 4⟩

/-- C9: The memoization branch in `validate_dataset` performs no action:
for every dataset, schema validator and low-level count function,
`validate_dataset` returns the same outcome and performs the same sequence
of low-level lookups as the variant with the `rec_memo` bookkeeping
removed; in particular on success the lookup trace is the full list of
recording references, repeats included — no lookup is skipped on
revisit. -/
theorem C9_memo_branch_noop (schemaValid : Dataset → Bool) (count : String → Nat)
    (ds : Dataset) :
    validate_dataset schemaValid count ds = validate_dataset_nomemo schemaValid count ds ∧
    ((validate_dataset schemaValid count ds).1 = Except.ok () →
      (validate_dataset schemaValid count ds).2 = allRecordings ds) := by
  have key : validate_dataset schemaValid count ds =
      validate_dataset_nomemo schemaValid count ds := by
    simp only [validate_dataset, validate_dataset_nomemo]
    by_cases hs : schemaValid ds
    · rw [if_pos hs, if_pos hs]
      have hm := validateClasses_memo_eq count ds.classes []
      rcases h1 : validateClassesMemo count ds.classes [] with ⟨res, tr⟩
      rcases h2 : validateClassesNoMemo count ds.classes with ⟨res2, tr2⟩
      rw [h1, h2] at hm
      obtain ⟨hm1, hm2⟩ := hm
      subst hm2
      cases res with
      | ok m =>
        cases res2 with
        | ok u => rfl
        | error r2 => exact absurd hm1 (by simp [dropMemo])
      | error r =>
        cases res2 with
        | ok u => exact absurd hm1 (by simp [dropMemo])
        | error r2 =>
          have : r = r2 := by simpa [dropMemo] using hm1
          subst this
          rfl
    · rw [if_neg hs, if_neg hs]
  refine ⟨key, ?_⟩
  intro hok
  rw [key] at hok ⊢
  simp only [validate_dataset_nomemo] at hok ⊢
  by_cases hs : schemaValid ds
  · rw [if_pos hs] at hok ⊢
    rcases h2 : validateClassesNoMemo count ds.classes with ⟨res2, tr2⟩
    rw [h2] at hok
    cases res2 with
    | ok u =>
      cases u
      have := validateClassesNoMemo_ok_trace count ds.classes (by rw [h2])
      rw [h2] at this
      exact this
    | error r => exact absurd hok (by simp)
  · rw [if_neg hs] at hok
    exact absurd hok (by simp)

/-- C5: If the submitted dataset (with no active job and passing the
structural schema check) references a recording with zero low-level
records, `evaluate_dataset` fails with the data-availability error naming
the first offending recording in class / recording iteration order, and
returns no new store — no job is created. -/
theorem C5_missing_lowlevel_error (schemaValid : Dataset → Bool) (count : String → Nat)
    (getDataset : String → Dataset) (now : Nat) (newId : String) (st : Store)
    (d : String) (r : String)
    (hact : countActive st d = 0)
    (hschema : schemaValid (getDataset d) = true)
    (hfind : (allRecordings (getDataset d)).find? (fun x => count x = 0) = some r) :
    evaluate_dataset schemaValid count getDataset now newId st d =
      Except.error (EvalError.validation (ValidationError.missingLowLevel r)) := by
  have herr := validateClassesMemo_error_of_find count (getDataset d).classes [] r
    (by simpa [allRecordings] using hfind)
  have hv : (validate_dataset schemaValid count (getDataset d)).1 =
      Except.error (ValidationError.missingLowLevel r) := by
    simp only [validate_dataset]
    rw [if_pos hschema, herr]
  simp only [evaluate_dataset]
  rw [if_neg (by omega), hv]

/-- C4: Submitting a dataset with no active (pending or running) job and
passing validation inserts exactly one new job — status pending, the
freshly generated id, `created` set to the insertion timestamp — and
returns that job's id. -/
theorem C4_submit_inserts_pending (schemaValid : Dataset → Bool) (count : String → Nat)
    (getDataset : String → Dataset) (now : Nat) (newId : String) (st : Store) (d : String)
    (hact : countActive st d = 0)
    (hval : (validate_dataset schemaValid count (getDataset d)).1 = Except.ok ())
    (hfresh : ∀ j ∈ st, j.id ≠ newId) :
    evaluate_dataset schemaValid count getDataset now newId st d =
      Except.ok (newId, st ++ [(⟨newId, d, STATUS_PENDING, none, none, now, now⟩ : Job)]) ∧
    ((st ++ [(⟨newId, d, STATUS_PENDING, none, none, now, now⟩ : Job)]).filter
        (fun x => x.id = newId)).length = 1 := by
  constructor
  · rw [evaluate_dataset_ok_iff]
    exact ⟨hact, hval, rfl, rfl⟩
  · rw [List.filter_append]
    have h0 : st.filter (fun x => decide (x.id = newId)) = [] := by
      rw [List.filter_eq_nil_iff]
      intro a ha
      simpa using hfresh a ha
    simp [h0]

/-- C1: After a successful submission for dataset `d`, an immediately
following second submission for `d` fails with `JobExistsException` and
returns no new store — it creates no job; the store after the two calls
holds exactly one more job for `d` than before the first call. -/
theorem C1_second_submit_fails (schemaValid : Dataset → Bool) (count : String → Nat)
    (getDataset : String → Dataset) (now1 : Nat) (newId1 : String) (now2 : Nat)
    (newId2 : String) (st : Store) (d : String) (jid : String) (st' : Store)
    (h : evaluate_dataset schemaValid count getDataset now1 newId1 st d =
      Except.ok (jid, st')) :
    evaluate_dataset schemaValid count getDataset now2 newId2 st' d =
      Except.error EvalError.jobExists ∧
    (st'.filter (fun x => x.dataset_id = d)).length =
      (st.filter (fun x => x.dataset_id = d)).length + 1 := by
  rw [evaluate_dataset_ok_iff] at h
  obtain ⟨hact, hval, h1, h2⟩ := h
  subst h2
  constructor
  · simp only [evaluate_dataset]
    rw [if_pos (countActive_append_pending st d newId1 now1)]
  · rw [List.filter_append]
    simp

/-- C2: `set_job_status` with a status outside the four recognized values
fails with `IncorrectJobStatusException`; the error outcome carries no
modified store, so every job keeps its prior `status`, `status_msg` and
`updated` — the raise happens before any update statement runs. -/
theorem C2_invalid_status_error (now : Nat) (st : Store) (jid : String) (status : String)
    (msg : Option String)
    (h : status ∉ [STATUS_PENDING, STATUS_RUNNING, STATUS_DONE, STATUS_FAILED]) :
    set_job_status now st jid status msg = Except.error DbError.incorrectJobStatus := by
  simp only [set_job_status]
  rw [if_neg h]

/-- C10: For a job id matching no row, `set_job_status` with a recognized
status succeeds and returns the store unchanged, `set_job_result` returns
the store unchanged, and `get_job` returns `none` — none of them fails. -/
theorem C10_missing_job_noop (now1 now2 : Nat) (st : Store) (jid : String)
    (status : String) (msg : Option String) (r : String)
    (hmiss : ∀ j ∈ st, j.id ≠ jid)
    (hstatus : status ∈ [STATUS_PENDING, STATUS_RUNNING, STATUS_DONE, STATUS_FAILED]) :
    set_job_status now1 st jid status msg = Except.ok st ∧
    set_job_result now2 st jid r = st ∧
    get_job st jid = none := by
  refine ⟨?_, ?_, ?_⟩
  · simp only [set_job_status]
    rw [if_pos hstatus, update_map_id _ hmiss]
  · simp only [set_job_result]
    exact update_map_id _ hmiss
  · simp only [get_job]
    rw [List.find?_eq_none]
    intro j hj
    simpa using hmiss j hj

/-- C3: `get_next_pending_job` returns `none` exactly when no pending job
exists, and otherwise returns a pending job of the store whose `created`
is least among all pending jobs; it is a pure read and modifies no job. -/
theorem C3_next_pending_job (st : Store) :
    (get_next_pending_job st = none ↔ ∀ j ∈ st, j.status ≠ STATUS_PENDING) ∧
    (∀ j, get_next_pending_job st = some j →
      j ∈ st ∧ j.status = STATUS_PENDING ∧
      ∀ j' ∈ st, j'.status = STATUS_PENDING → j.created ≤ j'.created) := by
  simp only [get_next_pending_job]
  have hperm := List.perm_insertionSort jobLE (st.filter (fun j => j.status = STATUS_PENDING))
  have hsorted := List.sorted_insertionSort jobLE (st.filter (fun j => j.status = STATUS_PENDING))
  rcases hs : List.insertionSort jobLE (st.filter (fun j => j.status = STATUS_PENDING)) with
    _ | ⟨a, t⟩
  · rw [hs] at hperm
    have hnil : st.filter (fun j => j.status = STATUS_PENDING) = [] :=
      hperm.symm.eq_nil
    constructor
    · simp only [List.head?_nil]
      constructor
      · intro _ j hj hpend
        have : j ∈ st.filter (fun j => j.status = STATUS_PENDING) :=
          List.mem_filter.mpr ⟨hj, by simpa using hpend⟩
        rw [hnil] at this
        exact absurd this (List.not_mem_nil j)
      · intro _
        trivial
    · intro j hj
      exact absurd hj (by simp)
  · rw [hs] at hperm hsorted
    constructor
    · constructor
      · intro hnone
        exact absurd hnone (by simp)
      · intro hall
        have ha : a ∈ st.filter (fun j => j.status = STATUS_PENDING) :=
          hperm.mem_iff.mp (List.mem_cons_self a t)
        obtain ⟨ha1, ha2⟩ := List.mem_filter.mp ha
        exact absurd (of_decide_eq_true ha2) (hall a ha1)
    · intro j hj
      have hj' : a = j := by simpa using hj
      subst hj'
      have ha : a ∈ st.filter (fun x => x.status = STATUS_PENDING) :=
        hperm.mem_iff.mp (List.mem_cons_self a t)
      obtain ⟨ha1, ha2⟩ := List.mem_filter.mp ha
      refine ⟨ha1, of_decide_eq_true ha2, ?_⟩
      intro j' hj1 hj2
      have hmem : j' ∈ a :: t := hperm.mem_iff.mpr
        (List.mem_filter.mpr ⟨hj1, by simpa using hj2⟩)
      rcases List.mem_cons.mp hmem with h | h
      · rw [h]
      · exact (List.pairwise_cons.mp hsorted).1 j' h

/-- C6: `get_jobs_for_dataset` returns exactly the jobs of the store whose
`dataset_id` is the given dataset (as a permutation of that selection, and
membership-wise), ordered by `created` in non-decreasing order. -/
theorem C6_jobs_for_dataset_sorted (st : Store) (d : String) :
    List.Perm (get_jobs_for_dataset st d) (st.filter (fun j => j.dataset_id = d)) ∧
    (∀ j, j ∈ get_jobs_for_dataset st d ↔ j ∈ st ∧ j.dataset_id = d) ∧
    List.Pairwise (fun a b : Job => a.created ≤ b.created) (get_jobs_for_dataset st d) := by
  refine ⟨List.perm_insertionSort jobLE _, ?_, ?_⟩
  · intro j
    rw [get_jobs_for_dataset, (List.perm_insertionSort jobLE _).mem_iff, List.mem_filter]
    simp
  · exact List.sorted_insertionSort jobLE _

/-- C7: `set_job_result` is a frame-respecting update, whatever the job's
current status: the store keeps its length and order; the matching row
gets `result := r` and `updated := now` while its `id`, `dataset_id`,
`status`, `status_msg` and `created` are untouched; every other row is
entirely unchanged. -/
theorem C7_set_result_frame (now : Nat) (st : Store) (jid : String) (r : String) :
    (set_job_result now st jid r).length = st.length ∧
    ∀ (i : Nat) (hi : i < st.length) (hi2 : i < (set_job_result now st jid r).length),
      ((set_job_result now st jid r).get ⟨i, hi2⟩).id = (st.get ⟨i, hi⟩).id ∧
      ((set_job_result now st jid r).get ⟨i, hi2⟩).dataset_id = (st.get ⟨i, hi⟩).dataset_id ∧
      ((set_job_result now st jid r).get ⟨i, hi2⟩).status = (st.get ⟨i, hi⟩).status ∧
      ((set_job_result now st jid r).get ⟨i, hi2⟩).status_msg = (st.get ⟨i, hi⟩).status_msg ∧
      ((set_job_result now st jid r).get ⟨i, hi2⟩).created = (st.get ⟨i, hi⟩).created ∧
      ((st.get ⟨i, hi⟩).id = jid →
        ((set_job_result now st jid r).get ⟨i, hi2⟩).result = some r ∧
        ((set_job_result now st jid r).get ⟨i, hi2⟩).updated = now) ∧
      ((st.get ⟨i, hi⟩).id ≠ jid →
        (set_job_result now st jid r).get ⟨i, hi2⟩ = st.get ⟨i, hi⟩) := by
  constructor
  · simp [set_job_result]
  · intro i hi hi2
    have hg : (set_job_result now st jid r).get ⟨i, hi2⟩ =
        (fun j => if j.id = jid then { j with result := some r, updated := now } else j)
          (st.get ⟨i, hi⟩) := by
      simp [set_job_result]
    rw [hg]
    by_cases h : (st.get ⟨i, hi⟩).id = jid
    · simp only [List.get_eq_getElem] at h ⊢
      simp [h]
    · simp only [List.get_eq_getElem] at h ⊢
      simp [h]

/-- Any row of the store produced by `set_job_result` that carries the
targeted id has the new result payload and the new `updated` stamp. -/
theorem set_job_result_hit (now : Nat) (st : Store) (jid : String) (r : String) :
    ∀ j ∈ set_job_result now st jid r, j.id = jid →
      j.result = some r ∧ j.updated = now := by
  intro j hj hid
  simp only [set_job_result, List.mem_map] at hj
  obtain ⟨a, _, rfl⟩ := hj
  by_cases h : a.id = jid
  · simp [h]
  · simp only [if_neg h] at hid ⊢
    exact absurd hid h

/-- C8: `set_job_result` is idempotent on `result`: after two successive
calls with the same payload `r`, the targeted job's `result` is `r`; and
`updated` is refreshed on each of the two calls — it carries the first
call's timestamp after the first call and the second call's after the
second. -/
theorem C8_set_result_idempotent (now1 now2 : Nat) (st : Store) (jid : String)
    (r : String) :
    (∀ j ∈ set_job_result now1 st jid r, j.id = jid →
      j.result = some r ∧ j.updated = now1) ∧
    (∀ j ∈ set_job_result now2 (set_job_result now1 st jid r) jid r, j.id = jid →
      j.result = some r ∧ j.updated = now2) :=
  ⟨set_job_result_hit now1 st jid r,
   set_job_result_hit now2 (set_job_result now1 st jid r) jid r⟩

/-- Concrete instance of the C1 theorem: after submitting dataset `d1`
into an empty store, a second submission fails with the duplicate-job
error and the store holds one job for `d1`. -/
theorem C1_second_submit_fails_witness :
    evaluate_dataset (fun _ => true) (fun _ => 1) (fun _ => exDs) 2 "j2"
        [(⟨"j1", "d1", STATUS_PENDING, none, none, 1, 1⟩ : Job)] "d1" =
      Except.error EvalError.jobExists ∧
    (([(⟨"j1", "d1", STATUS_PENDING, none, none, 1, 1⟩ : Job)] : Store).filter
        (fun x => x.dataset_id = "d1")).length =
      (([] : Store).filter (fun x => x.dataset_id = "d1")).length + 1 :=
  C1_second_submit_fails (fun _ => true) (fun _ => 1) (fun _ => exDs) 1 "j1" 2 "j2" [] "d1"
    "j1" [(⟨"j1", "d1", STATUS_PENDING, none, none, 1, 1⟩ : Job)] rfl

/-- Concrete instance of the C2 theorem at the unrecognized status
"bogus". -/
theorem C2_invalid_status_error_witness :
    set_job_status 5 [exJob] "j1" "bogus" none = Except.error DbError.incorrectJobStatus :=
  C2_invalid_status_error 5 [exJob] "j1" "bogus" none (by decide)

/-- Concrete instance of the C3 theorem: the empty store has no pending
job, so `get_next_pending_job` returns `none`. -/
theorem C3_next_pending_job_witness : get_next_pending_job ([] : Store) = none :=
  (C3_next_pending_job ([] : Store)).1.mpr (by simp)

/-- Concrete instance of the C4 theorem: submitting into an empty store
appends one pending job and returns the fresh id. -/
theorem C4_submit_inserts_pending_witness :
    evaluate_dataset (fun _ => true) (fun _ => 1) (fun _ => exDs) 1 "j1" [] "d1" =
      Except.ok ("j1", [] ++ [(⟨"j1", "d1", STATUS_PENDING, none, none, 1, 1⟩ : Job)]) ∧
    ((([] : Store) ++ [(⟨"j1", "d1", STATUS_PENDING, none, none, 1, 1⟩ : Job)]).filter
        (fun x => x.id = "j1")).length = 1 :=
  C4_submit_inserts_pending (fun _ => true) (fun _ => 1) (fun _ => exDs) 1 "j1" [] "d1"
    rfl rfl (by simp)

/-- Concrete instance of the C5 theorem: with no low-level data at all,
submitting `exDs` fails naming its first recording "r1". -/
theorem C5_missing_lowlevel_error_witness :
    evaluate_dataset (fun _ => true) (fun _ => 0) (fun _ => exDs) 1 "j1" [] "d1" =
      Except.error (EvalError.validation (ValidationError.missingLowLevel "r1")) :=
  C5_missing_lowlevel_error (fun _ => true) (fun _ => 0) (fun _ => exDs) 1 "j1" [] "d1"
    "r1" rfl rfl rfl

/-- Concrete instance of the C6 theorem on a two-job store. -/
theorem C6_jobs_for_dataset_sorted_witness :
    List.Perm (get_jobs_for_dataset [exJob, exJob2] "d1")
      (([exJob, exJob2] : Store).filter (fun j => j.dataset_id = "d1")) ∧
    List.Pairwise (fun a b : Job => a.created ≤ b.created)
      (get_jobs_for_dataset [exJob, exJob2] "d1") :=
  ⟨(C6_jobs_for_dataset_sorted [exJob, exJob2] "d1").1,
   (C6_jobs_for_dataset_sorted [exJob, exJob2] "d1").2.2⟩

/-- Concrete instance of the C7 theorem: updating the single job of a
store keeps its length and rewrites the row's result. -/
theorem C7_set_result_frame_witness :
    (set_job_result 9 [exJob] "j1" "res").length = ([exJob] : Store).length ∧
    ((set_job_result 9 [exJob] "j1" "res").get ⟨0, by decide⟩).result = some "res" :=
  ⟨(C7_set_result_frame 9 [exJob] "j1" "res").1,
   (((C7_set_result_frame 9 [exJob] "j1" "res").2 0 (by decide)
      (by decide)).2.2.2.2.2.1 rfl).1⟩

/-- Concrete instance of the C8 theorem: after two `set_job_result` calls
with the same payload, the job carries that payload and the second
timestamp. -/
theorem C8_set_result_idempotent_witness :
    (⟨"j1", "d1", STATUS_PENDING, none, some "res", 3, 8⟩ : Job).result = some "res" ∧
    (⟨"j1", "d1", STATUS_PENDING, none, some "res", 3, 8⟩ : Job).updated = 8 :=
  (C8_set_result_idempotent 7 8 [exJob] "j1" "res").2
    ⟨"j1", "d1", STATUS_PENDING, none, some "res", 3, 8⟩ (by decide) rfl

/-- Concrete instance of the C9 theorem on `exDs` with all low-level data
present. -/
theorem C9_memo_branch_noop_witness :
    validate_dataset (fun _ => true) (fun _ => 1) exDs =
      validate_dataset_nomemo (fun _ => true) (fun _ => 1) exDs ∧
    (validate_dataset (fun _ => true) (fun _ => 1) exDs).2 = allRecordings exDs :=
  ⟨(C9_memo_branch_noop (fun _ => true) (fun _ => 1) exDs).1,
   (C9_memo_branch_noop (fun _ => true) (fun _ => 1) exDs).2 rfl⟩

/-- Concrete instance of the C10 theorem at the absent job id "zz". -/
theorem C10_missing_job_noop_witness :
    set_job_status 5 [exJob] "zz" STATUS_DONE none = Except.ok [exJob] ∧
    set_job_result 6 [exJob] "zz" "r" = [exJob] ∧
    get_job [exJob] "zz" = none :=
  C10_missing_job_noop 5 6 [exJob] "zz" STATUS_DONE none "r" (by decide) (by decide)

end DatasetEval
